import Mathlib

/-!
Verification of the forum-fusion backend core: the authorization gate
(server/middleware/authorize.js), the user model with role-derived
permission defaults (server/models/user.model.js), the comment routes
(list / create / update / delete / like), the moderator and admin routes,
and the password-reset flow.  Every definition below is a shallow
embedding of the corresponding JavaScript, with the persistent store
modelled as in-memory lists of documents and external hash functions
(bcrypt, sha256) taken as parameters.

Fidelity conventions for the Mongoose layer:
* documents carry exactly the schema's paths (the comment reply field is
  `parentComment`; the thread schema has no `commentCount`);
* writes and update operators on non-schema paths are stripped by strict
  mode, so the comments router's `parent` writes and the `$inc` on
  `commentCount` have no effect;
* a query on a path no stored document has matches every document for a
  null value and no document for a concrete value;
* `req.user` is the raw JWT payload `{userId, role}` attached by
  auth.js, so the router's `req.user._id` reads yield undefined:
  dereferencing it throws (caught as a 500), and using it as a value for
  the required `author` path makes save() fail validation (a 500 too) —
  both are modelled as a `serverError` outcome.
-/

namespace ForumFusion

abbrev UserId := Nat
abbrev ThreadId := Nat
abbrev CommentId := Nat

/-- Role enum of user.model.js. -/
inductive Role where
  | community_member
  | moderator
  | admin
  | guest
deriving Repr, DecidableEq

/-- The four stored permission flags of user.model.js. -/
structure Permissions where
  canPost : Bool
  canComment : Bool
  canModerate : Bool
  canManageUsers : Bool
deriving Repr, DecidableEq

/-- Keys usable in an authorize({permissions:[...]}) guard. -/
inductive PermKey where
  | canPost
  | canComment
  | canModerate
  | canManageUsers
deriving Repr, DecidableEq

def Permissions.get (ps : Permissions) : PermKey → Bool
  | .canPost => ps.canPost
  | .canComment => ps.canComment
  | .canModerate => ps.canModerate
  | .canManageUsers => ps.canManageUsers

/-- The `req.user` payload attached by the auth middleware.  The JWT
payload carries userId and role; a permissions object may or may not be
present, which is why authorize.js guards with
`req.user.permissions && req.user.permissions[permission]`. -/
structure Identity where
  userId : UserId
  role : Role
  permissions : Option Permissions
deriving Repr, DecidableEq

/-- Outcome of the authorize middleware: `next()` or one of the three
early responses (401 unauthenticated, 403 role, 403 permission). -/
inductive AuthzDecision where
  | allow
  | denyUnauthenticated
  | denyInsufficientRole
  | denyInsufficientPermission
deriving Repr, DecidableEq

/-- `req.user.permissions && req.user.permissions[permission]` coerced
to a boolean: false when no permissions object is attached. -/
def identityHasPermission (user : Identity) (p : PermKey) : Bool :=
  match user.permissions with
  | none => false
  | some ps => ps.get p

/-- server/middleware/authorize.js: check `req.user`, then the role list
(skipped when empty), then the permission list (skipped when empty,
`every` across the listed flags). -/
def authorize (roles : List Role) (permissions : List PermKey)
    (user : Option Identity) : AuthzDecision :=
  match user with
  | none => .denyUnauthenticated
  | some u =>
    if roles.length > 0 && !(roles.contains u.role) then
      .denyInsufficientRole
    else if permissions.length > 0 &&
        !(permissions.all (fun p => identityHasPermission u p)) then
      .denyInsufficientPermission
    else
      .allow

/-- Thread document (server/models/thread.model.js).  The schema has no
`commentCount` path, which is why the comment routes' `$inc` updates on
that name are stripped. -/
structure ThreadDoc where
  id : ThreadId
  title : String
  content : String
  author : UserId
  isPublic : Bool
  isLocked : Bool
  views : Nat
deriving Repr, DecidableEq

/-- Comment document (server/models/comment.model.js): content, author,
owning thread, optional reply parent stored under the schema path
`parentComment`, edited flag, hidden flag, like list of user
references, creation timestamp.  No stored document has a `parent`
path, the name the comments router queries and writes. -/
structure CommentDoc where
  id : CommentId
  content : String
  author : UserId
  thread : ThreadId
  parentComment : Option CommentId
  isEdited : Bool
  isHidden : Bool
  likes : List UserId
  createdAt : Nat
deriving Repr, DecidableEq

/-- User document (server/models/user.model.js). -/
structure UserDoc where
  id : UserId
  username : String
  email : String
  password : Option String
  passwordResetToken : Option String
  passwordResetExpires : Option Nat
  role : Role
  permissions : Permissions
  lastActive : Nat
deriving Repr, DecidableEq

/-- The persistent store: the three document collections. -/
structure Store where
  users : List UserDoc
  threads : List ThreadDoc
  comments : List CommentDoc
deriving Repr, DecidableEq

/-- Thread.findById. -/
def findThread (s : Store) (tid : ThreadId) : Option ThreadDoc :=
  s.threads.find? (fun t => t.id == tid)

/-- Comment.findById. -/
def findComment (s : Store) (cid : CommentId) : Option CommentDoc :=
  s.comments.find? (fun c => c.id == cid)

/-- Error outcomes of the routes under verification.  `serverError`
models an exception caught by a route's try/catch and answered as a
500. -/
inductive Failure where
  | threadNotFound
  | parentCommentNotFound
  | commentNotFound
  | notAuthorized
  | userNotFound
  | invalidResetToken
  | serverError
deriving Repr, DecidableEq

/-- The `_id` property the comments router reads from `req.user`.
auth.js attaches the verified JWT payload, and the login route signs
`{userId, role}` only, so `_id` is absent (undefined) on every
authenticated request. -/
def reqUserUnderscoreId (_user : Identity) : Option UserId :=
  none

/-- A MongoDB filter `{parent: v}` evaluated against stored comments:
`parent` is not a schema path (the schema field is `parentComment`), so
no stored document has it — a null value matches every document (null
matches a missing path) and a concrete id matches none. -/
def matchesParentQuery (queryVal : Option CommentId) (_c : CommentDoc) :
    Bool :=
  match queryVal with
  | none => true
  | some _ => false

/-- `Thread.findByIdAndUpdate(tid, {$inc: {commentCount: delta}})`:
the thread schema has no `commentCount` path, so strict update
semantics strip the `$inc` and the stored threads are unchanged. -/
def incThreadCommentCount (threads : List ThreadDoc) (_tid : ThreadId)
    (_delta : Int) : List ThreadDoc :=
  threads

/-- The save-and-count tail of router.post("/"): `new Comment({content,
author, thread, parent: parentId || null}).save()` followed by the
`$inc` on the thread.  The `parent` write is stripped by strict mode
(not a schema path), and the passed author is `req.user._id` — absent
from the JWT payload — so the required `author` path fails validation
and save() throws, answered as a 500; nothing is persisted and the
`$inc` is never reached. -/
def createCommentSave (s : Store) (author : Option UserId)
    (newId : CommentId) (now : Nat) (content : String) (tid : ThreadId) :
    Except Failure Store :=
  match author with
  | none => .error .serverError
  | some uid =>
    .ok { s with
      comments := s.comments ++
        [{ id := newId, content := content, author := uid, thread := tid,
           parentComment := none, isEdited := false, isHidden := false,
           likes := [], createdAt := now }],
      threads := incThreadCommentCount s.threads tid 1 }

/-- router.post("/") of the comments router: verify the thread exists
(404 otherwise), verify the parent comment exists when a parentId is
given (404 otherwise), then attempt the save with
author := req.user._id.  The route is guarded by `auth` only. -/
def createComment (s : Store) (user : Identity) (newId : CommentId)
    (now : Nat) (content : String) (tid : ThreadId)
    (parentId : Option CommentId) : Except Failure Store :=
  match findThread s tid with
  | none => .error .threadNotFound
  | some _ =>
    match parentId with
    | none => createCommentSave s (reqUserUnderscoreId user) newId now content tid
    | some pid =>
      match findComment s pid with
      | none => .error .parentCommentNotFound
      | some _ => createCommentSave s (reqUserUnderscoreId user) newId now content tid

/-- router.put("/:id"): 404 when the comment is missing; otherwise the
guard `comment.author.toString() !== req.user._id.toString()` runs —
but `req.user._id` is undefined, so `.toString()` throws a TypeError
that the route's catch answers as a 500.  The author/admin check and
the content/isEdited update are the code after that line, reachable
only were `_id` present. -/
def updateComment (s : Store) (user : Identity) (cid : CommentId)
    (newContent : String) : Except Failure Store :=
  match findComment s cid with
  | none => .error .commentNotFound
  | some c =>
    match reqUserUnderscoreId user with
    | none => .error .serverError
    | some uid =>
      if c.author != uid && user.role != Role.admin then
        .error .notAuthorized
      else
        .ok { s with comments := s.comments.map (fun d =>
          if d.id == cid then { d with content := newContent, isEdited := true }
          else d) }

/-- router.delete("/:id"): 404 when the comment is missing; otherwise
the same `req.user._id.toString()` guard throws (500).  The code after
it — `deleteMany({parent: comment._id})` (a filter on the non-schema
`parent` path, matching no document), the comment's own removal, and
the stripped `$inc` — is reachable only were `_id` present. -/
def deleteComment (s : Store) (user : Identity) (cid : CommentId) :
    Except Failure Store :=
  match findComment s cid with
  | none => .error .commentNotFound
  | some c =>
    match reqUserUnderscoreId user with
    | none => .error .serverError
    | some uid =>
      if c.author != uid && user.role != Role.admin then
        .error .notAuthorized
      else
        let afterReplies := s.comments.filter
          (fun d => !(matchesParentQuery (some c.id) d))
        let remaining := afterReplies.filter (fun d => d.id != c.id)
        .ok { s with comments := remaining,
                     threads := incThreadCommentCount s.threads c.thread (-1) }

/-- router.get("/thread/:threadId"): query `{thread: threadId, parent:
parentId-or-null}`, sort by createdAt ascending, and annotate each
result with `countDocuments({parent: comment._id})`.  Both the filter
and the count run against the non-schema `parent` path. -/
def listComments (s : Store) (tid : ThreadId)
    (parentId : Option CommentId) : List (CommentDoc × Nat) :=
  let matching := s.comments.filter
    (fun c => c.thread == tid && matchesParentQuery parentId c)
  let sorted := matching.insertionSort
    (fun a b => a.createdAt ≤ b.createdAt)
  sorted.map (fun c =>
    (c, (s.comments.filter (fun d => matchesParentQuery (some c.id) d)).length))

/-- JavaScript values involved in `comment.likes += 1`: the stored
array of user references, numbers, and strings produced by coercion. -/
inductive JSValue where
  | num (n : Int)
  | str (s : String)
  | arr (elems : List JSValue)

mutual

/-- JS ToPrimitive/ToString: arrays join their elements with commas. -/
def jsValueToString : JSValue → String
  | .num n => toString n
  | .str s => s
  | .arr l => jsListToString l

def jsListToString : List JSValue → String
  | [] => ""
  | [x] => jsValueToString x
  | x :: y :: xs => jsValueToString x ++ "," ++ jsListToString (y :: xs)

end

/-- The JS `+` operator as it applies here: number addition when both
operands are numbers, otherwise string concatenation of the coerced
operands (an array operand always coerces to a string). -/
def jsPlus (a b : JSValue) : JSValue :=
  match a, b with
  | .num x, .num y => .num (x + y)
  | _, _ => .str (jsValueToString a ++ jsValueToString b)

/-- router.post("/:id/like"): 404 when the comment is missing;
otherwise evaluate `comment.likes += 1` on the stored likes array
(each element a user ObjectId reference) and answer with the resulting
value of `comment.likes`. -/
def likeComment (s : Store) (cid : CommentId) : Except Failure JSValue :=
  match findComment s cid with
  | none => .error .commentNotFound
  | some c =>
    .ok (jsPlus (.arr (c.likes.map (fun u => .str (toString u)))) (.num 1))

/-- app.delete("/comments/:commentId"): authorize canModerate, then
`Comment.findByIdAndDelete` (removes the document with that unique id
when present, succeeds either way); no cascade, no counter update. -/
def deleteCommentAsModerator (requester : Identity) (s : Store)
    (cid : CommentId) : Except AuthzDecision Store :=
  match authorize [] [PermKey.canModerate] (some requester) with
  | .allow => .ok { s with comments := s.comments.filter (fun c => c.id != cid) }
  | d => .error d

/-- app.put("/admin/users/:userId/role"): authorize canManageUsers,
then `User.findByIdAndUpdate(userId, {$set: {role}})` — only the role
field is written. -/
def adminSetUserRole (requester : Identity) (users : List UserDoc)
    (uid : UserId) (newRole : Role) : Except AuthzDecision (List UserDoc) :=
  match authorize [] [PermKey.canManageUsers] (some requester) with
  | .allow => .ok (users.map (fun u =>
      if u.id == uid then { u with role := newRole } else u))
  | d => .error d

/-- The schema default functions of user.model.js, each reading
`this.role` at creation time. -/
def defaultPermissions (r : Role) : Permissions :=
  { canPost := [Role.community_member, Role.moderator, Role.admin].contains r,
    canComment := [Role.community_member, Role.moderator, Role.admin].contains r,
    canModerate := [Role.moderator, Role.admin].contains r,
    canManageUsers := r == Role.admin }

/-- `User.create({username, email, password, role})` with no explicit
permissions: the schema defaults derive the flags from the role, the
reset-token fields start unset, and the pre-save hook stamps
lastActive. -/
def createUserDoc (newId : UserId) (username email : String)
    (password : Option String) (role : Role) (now : Nat) : UserDoc :=
  { id := newId, username := username, email := email, password := password,
    passwordResetToken := none, passwordResetExpires := none,
    role := role, permissions := defaultPermissions role, lastActive := now }

/-- app.post("/forgot-password"): look the user up by email (404 when
absent), then store the sha256 hash of the fresh reset token together
with a one-hour expiry and save. -/
def forgotPassword (sha256 : String → String) (users : List UserDoc)
    (email resetToken : String) (now : Nat) :
    Except Failure (List UserDoc) :=
  match users.find? (fun u => u.email == email) with
  | none => .error .userNotFound
  | some u =>
    .ok (users.map (fun v =>
      if v.id == u.id then
        { v with passwordResetToken := some (sha256 resetToken),
                 passwordResetExpires := some (now + 3600000),
                 lastActive := now }
      else v))

/-- The lookup predicate of app.put("/reset-password/:token"):
`passwordResetToken` equals the sha256 hash of the presented token and
`passwordResetExpires` is strictly in the future (`$gt: Date.now()`). -/
def resetTokenMatches (sha256 : String → String) (token : String)
    (now : Nat) (u : UserDoc) : Bool :=
  u.passwordResetToken == some (sha256 token) &&
    match u.passwordResetExpires with
    | some e => now < e
    | none => false

/-- app.put("/reset-password/:token"): find a user whose stored token
hash matches and has not expired (400 otherwise), then store the bcrypt
hash of the new password and clear both reset-token fields. -/
def resetPassword (sha256 bcryptHash : String → String)
    (users : List UserDoc) (token newPassword : String) (now : Nat) :
    Except Failure (List UserDoc) :=
  match users.find? (resetTokenMatches sha256 token now) with
  | none => .error .invalidResetToken
  | some u =>
    .ok (users.map (fun v =>
      if v.id == u.id then
        { v with password := some (bcryptHash newPassword),
                 passwordResetToken := none,
                 passwordResetExpires := none,
                 lastActive := now }
      else v))

/-! ### C1 — the authorization gate -/

/-- C1: the authorization gate allows iff an identity is present AND
(the required-role list is empty OR the identity's role is a member)
AND (the required-permission list is empty OR every listed flag is
held); it denies with Unauthenticated exactly when no identity is
attached, with InsufficientRole exactly when (given an identity) the
role check fails, and with InsufficientPermission exactly when (given
an identity passing the role check) some required flag is missing. -/
theorem c1_authorize_gate_correct (roles : List Role)
    (permissions : List PermKey) (user : Option Identity) :
    (authorize roles permissions user = AuthzDecision.allow ↔
      ∃ u, user = some u ∧ (roles = [] ∨ u.role ∈ roles) ∧
        (permissions = [] ∨ ∀ p ∈ permissions, identityHasPermission u p = true)) ∧
    (authorize roles permissions user = AuthzDecision.denyUnauthenticated ↔
      user = none) ∧
    (∀ u, user = some u →
      (authorize roles permissions user = AuthzDecision.denyInsufficientRole ↔
        roles ≠ [] ∧ u.role ∉ roles)) ∧
    (∀ u, user = some u → (roles = [] ∨ u.role ∈ roles) →
      (authorize roles permissions user = AuthzDecision.denyInsufficientPermission ↔
        permissions ≠ [] ∧ ∃ p ∈ permissions, identityHasPermission u p = false)) := by
  cases user with
  | none => simp [authorize]
  | some u =>
    by_cases hrole : roles = [] ∨ u.role ∈ roles
    · by_cases hperm : permissions = [] ∨
          ∀ p ∈ permissions, identityHasPermission u p = true
      · have hA : authorize roles permissions (some u) = AuthzDecision.allow := by
          simp only [authorize]
          split_ifs with h1 h2
          · exfalso
            rw [Bool.and_eq_true] at h1
            obtain ⟨hl, hc⟩ := h1
            have hl' : roles ≠ [] :=
              List.ne_nil_of_length_pos (of_decide_eq_true hl)
            have hc' : u.role ∉ roles := by simpa using hc
            rcases hrole with h | h
            · exact hl' h
            · exact hc' h
          · exfalso
            rw [Bool.and_eq_true] at h2
            obtain ⟨hl, hc⟩ := h2
            have hl' : permissions ≠ [] :=
              List.ne_nil_of_length_pos (of_decide_eq_true hl)
            have hc' : ¬ ∀ p ∈ permissions, identityHasPermission u p = true := by
              intro hall
              rw [List.all_eq_true.mpr hall] at hc
              simp at hc
            rcases hperm with h | h
            · exact hl' h
            · exact hc' h
          · rfl
        refine ⟨?_, ?_, ?_, ?_⟩
        · rw [hA]
          exact ⟨fun _ => ⟨u, rfl, hrole, hperm⟩, fun _ => rfl⟩
        · rw [hA]; simp
        · intro v hv
          injection hv with h; subst h
          rw [hA]
          constructor
          · intro h; exact AuthzDecision.noConfusion h
          · rintro ⟨hne, hnm⟩
            rcases hrole with h | h
            · exact absurd h hne
            · exact absurd h hnm
        · intro v hv _
          injection hv with h; subst h
          rw [hA]
          constructor
          · intro h; exact AuthzDecision.noConfusion h
          · rintro ⟨hne, p, hp, hpf⟩
            rcases hperm with h | h
            · exact absurd h hne
            · have := h p hp
              simp [hpf] at this
      · have hpne : permissions ≠ [] := fun h => hperm (Or.inl h)
        have hpall : permissions.all (fun p => identityHasPermission u p) = false := by
          cases hall : permissions.all (fun q => identityHasPermission u q) with
          | false => rfl
          | true => exact absurd (Or.inr (List.all_eq_true.mp hall)) hperm
        have hpex : ∃ p ∈ permissions, identityHasPermission u p = false := by
          by_contra hc
          push_neg at hc
          refine hperm (Or.inr fun p hp => ?_)
          have := hc p hp
          simpa using this
        have hD : authorize roles permissions (some u) =
            AuthzDecision.denyInsufficientPermission := by
          simp only [authorize]
          split_ifs with h1 h2
          · exfalso
            rw [Bool.and_eq_true] at h1
            obtain ⟨hl, hc⟩ := h1
            have hl' : roles ≠ [] :=
              List.ne_nil_of_length_pos (of_decide_eq_true hl)
            have hc' : u.role ∉ roles := by simpa using hc
            rcases hrole with h | h
            · exact hl' h
            · exact hc' h
          · rfl
          · exfalso
            apply h2
            rw [Bool.and_eq_true]
            refine ⟨decide_eq_true (List.length_pos.mpr hpne), ?_⟩
            rw [hpall]
            rfl
        refine ⟨?_, ?_, ?_, ?_⟩
        · rw [hD]
          constructor
          · intro h; exact AuthzDecision.noConfusion h
          · rintro ⟨v, hv, -, hpm⟩
            injection hv with h; subst h
            exact (hperm hpm).elim
        · rw [hD]; simp
        · intro v hv
          injection hv with h; subst h
          rw [hD]
          constructor
          · intro h; exact AuthzDecision.noConfusion h
          · rintro ⟨hne, hnm⟩
            rcases hrole with h | h
            · exact absurd h hne
            · exact absurd h hnm
        · intro v hv _
          injection hv with h; subst h
          rw [hD]
          exact ⟨fun _ => ⟨hpne, hpex⟩, fun _ => rfl⟩
    · have hne : roles ≠ [] := fun h => hrole (Or.inl h)
      have hnm : u.role ∉ roles := fun h => hrole (Or.inr h)
      have hcont : roles.contains u.role = false := by
        cases hc : roles.contains u.role with
        | false => rfl
        | true => exact absurd (by simpa using hc) hnm
      have hcondtrue : (decide (roles.length > 0) && !(roles.contains u.role)) = true := by
        rw [Bool.and_eq_true]
        refine ⟨decide_eq_true (List.length_pos.mpr hne), ?_⟩
        rw [hcont]
        rfl
      have hD : authorize roles permissions (some u) =
          AuthzDecision.denyInsufficientRole := by
        simp only [authorize]
        exact if_pos hcondtrue
      refine ⟨?_, ?_, ?_, ?_⟩
      · rw [hD]
        constructor
        · intro h; exact AuthzDecision.noConfusion h
        · rintro ⟨v, hv, hr, -⟩
          injection hv with h; subst h
          exact (hrole hr).elim
      · rw [hD]; simp
      · intro v hv
        injection hv with h; subst h
        rw [hD]
        exact ⟨fun _ => ⟨hne, hnm⟩, fun _ => rfl⟩
      · intro v hv hr
        injection hv with h; subst h
        exact (hrole hr).elim

/-- Witness for C1 at a concrete identity: a moderator fails an
admin-only role gate with InsufficientRole. -/
theorem c1_authorize_gate_correct_witness :
    authorize [Role.admin] ([] : List PermKey)
      (some { userId := 1, role := Role.moderator, permissions := none }) =
      AuthzDecision.denyInsufficientRole := by
  have h := (c1_authorize_gate_correct [Role.admin] []
      (some { userId := 1, role := Role.moderator, permissions := none })).2.2.1
      { userId := 1, role := Role.moderator, permissions := none } rfl
  exact h.mpr (by decide)

/-! ### Concrete fixtures used by witnesses and counterexamples -/

/-- An ordinary community member who authored the sample content. -/
def alice : Identity :=
  { userId := 7, role := Role.community_member,
    permissions := some { canPost := true, canComment := true,
                          canModerate := false, canManageUsers := false } }

/-- A moderator identity holding canModerate. -/
def maria : Identity :=
  { userId := 5, role := Role.moderator,
    permissions := some { canPost := true, canComment := true,
                          canModerate := true, canManageUsers := false } }

def sampleThread : ThreadDoc :=
  { id := 1, title := "t", content := "b", author := 7,
    isPublic := true, isLocked := false, views := 0 }

/-- Top-level comment. -/
def cA : CommentDoc :=
  { id := 1, content := "A", author := 7, thread := 1,
    parentComment := none, isEdited := false, isHidden := false,
    likes := [], createdAt := 10 }

/-- The single direct child of cA (parentComment = 1). -/
def cB : CommentDoc :=
  { id := 2, content := "B", author := 7, thread := 1,
    parentComment := some 1, isEdited := false, isHidden := false,
    likes := [], createdAt := 11 }

/-- A grandchild of cA (reply to cB). -/
def cG : CommentDoc :=
  { id := 3, content := "G", author := 7, thread := 1,
    parentComment := some 2, isEdited := false, isHidden := false,
    likes := [], createdAt := 12 }

def sampleStore : Store :=
  { users := [], threads := [sampleThread], comments := [cA, cB, cG] }

/-! ### C4 — updateComment -/

/-- C4 (code bug): updateComment does return NotFound when the comment
does not exist, but for every existing comment the route throws before
any authorization decision — `comment.author.toString() !==
req.user._id.toString()` dereferences the undefined `req.user._id` —
and answers 500.  The claimed Forbidden branch and the
success-with-isEdited branch are unreachable for every requester,
including the comment's author and admins. -/
theorem c4_updateComment_crashes (s : Store) (u : Identity)
    (cid : CommentId) (newContent : String) :
    (findComment s cid = none →
      updateComment s u cid newContent = .error .commentNotFound) ∧
    (∀ c, findComment s cid = some c →
      updateComment s u cid newContent = .error .serverError) := by
  refine ⟨?_, ?_⟩
  · intro h
    simp [updateComment, h]
  · intro c hc
    simp [updateComment, hc, reqUserUnderscoreId]

/-- Witness for C4: alice, the author of comment cA, attempts to edit
it with a valid session and still gets the 500 outcome. -/
theorem c4_updateComment_crashes_witness :
    updateComment sampleStore alice 1 "A2" = .error .serverError :=
  (c4_updateComment_crashes sampleStore alice 1 "A2").2 cA (by decide)

/-! ### C2 — createComment (comments router) -/

/-- C2 (code bug): the thread and parent existence checks are real —
a missing thread or a missing named parent is answered 404 — but every
call that passes them fails with a 500 and persists nothing: the route
builds the comment with author := req.user._id, which the auth
middleware never sets, so the required author path fails validation
when save() runs.  The claimed persist-and-increment never happens on
this path (and the thread schema has no comment counter to increment),
so the canComment requirement is never even consulted here. -/
theorem c2_createComment_router_500 (s : Store) (u : Identity)
    (newId : CommentId) (now : Nat) (content : String) (tid : ThreadId)
    (parentId : Option CommentId) :
    (findThread s tid = none →
      createComment s u newId now content tid parentId =
        .error .threadNotFound) ∧
    (∀ t pid, findThread s tid = some t → parentId = some pid →
      findComment s pid = none →
      createComment s u newId now content tid parentId =
        .error .parentCommentNotFound) ∧
    (∀ t, findThread s tid = some t →
      (parentId = none ∨
        ∃ pid p, parentId = some pid ∧ findComment s pid = some p) →
      createComment s u newId now content tid parentId =
        .error .serverError) := by
  refine ⟨?_, ?_, ?_⟩
  · intro h
    simp [createComment, h]
  · intro t pid ht hp hparent
    subst hp
    simp [createComment, ht, hparent]
  · intro t ht hok
    rcases hok with h | ⟨pid, p, hpe, hpf⟩
    · subst h
      simp [createComment, createCommentSave, reqUserUnderscoreId, ht]
    · subst hpe
      simp [createComment, createCommentSave, reqUserUnderscoreId, ht, hpf]

/-- Witness for C2: alice posts a comment on the existing sample thread
with a valid session; the checks pass and the call still ends in the
500 outcome. -/
theorem c2_createComment_router_500_witness :
    createComment sampleStore alice 10 20 "hi" 1 none =
      .error .serverError :=
  (c2_createComment_router_500 sampleStore alice 10 20 "hi" 1 none).2.2
    sampleThread (by decide) (Or.inl rfl)

/-! ### C3 — owner/admin delete cascade -/

/-- C3 (code bug): the owner/admin delete path answers 404 for a
missing comment and 500 for every existing one — the guard
`comment.author.toString() !== req.user._id.toString()` dereferences
the undefined `req.user._id` before anything is deleted.  No comment
(neither C nor its child) is ever removed and no counter changes, so
the claimed remove-and-decrement never happens; even absent the crash,
`deleteMany({parent: C})` filters on the non-schema `parent` path
(matching no stored document) and the `$inc {commentCount: -1}`
targets a path the thread schema does not have. -/
theorem c3_deleteComment_crashes (s : Store) (u : Identity)
    (cid : CommentId) :
    (findComment s cid = none →
      deleteComment s u cid = .error .commentNotFound) ∧
    (∀ c, findComment s cid = some c →
      deleteComment s u cid = .error .serverError) := by
  refine ⟨?_, ?_⟩
  · intro h
    simp [deleteComment, h]
  · intro c hc
    simp [deleteComment, hc, reqUserUnderscoreId]

/-- Witness for C3: alice, author of cA (which has the direct child cB
and the grandchild cG in the sample store), attempts the delete and
gets the 500 outcome; nothing is removed. -/
theorem c3_deleteComment_crashes_witness :
    deleteComment sampleStore alice 1 = .error .serverError :=
  (c3_deleteComment_crashes sampleStore alice 1).2 cA (by decide)

/-! ### C5 — password reset -/

/-- C5: requesting a reset for an unknown email fails NotFound; a token
matches exactly when its sha256 hash equals the stored hash and the
stored expiry is strictly in the future; completing a reset when no
user matches (mismatched or expired token) fails InvalidResetToken;
completing a reset with a valid unexpired token stores the new password
hash and clears both reset-token fields. -/
theorem c5_password_reset_spec (sha bcr : String → String)
    (users : List UserDoc) (email resetToken token newPassword : String)
    (now : Nat) :
    (users.find? (fun u => u.email == email) = none →
      forgotPassword sha users email resetToken now = .error .userNotFound) ∧
    (∀ u, resetTokenMatches sha token now u = true ↔
      (u.passwordResetToken = some (sha token) ∧
        ∃ e, u.passwordResetExpires = some e ∧ now < e)) ∧
    ((∀ u ∈ users, resetTokenMatches sha token now u = false) →
      resetPassword sha bcr users token newPassword now =
        .error .invalidResetToken) ∧
    (∀ u, users.find? (resetTokenMatches sha token now) = some u →
      ∃ users', resetPassword sha bcr users token newPassword now = .ok users' ∧
        { u with password := some (bcr newPassword),
                 passwordResetToken := none,
                 passwordResetExpires := none,
                 lastActive := now } ∈ users') := by
  refine ⟨?_, ?_, ?_, ?_⟩
  · intro h
    simp [forgotPassword, h]
  · intro u
    unfold resetTokenMatches
    cases he : u.passwordResetExpires with
    | none => simp [he]
    | some e => simp [he]
  · intro h
    have hnone : users.find? (resetTokenMatches sha token now) = none := by
      rw [List.find?_eq_none]
      intro x hx hpx
      rw [h x hx] at hpx
      cases hpx
    simp [resetPassword, hnone]
  · intro u hu
    refine ⟨users.map (fun v => if v.id == u.id then
        { v with password := some (bcr newPassword),
                 passwordResetToken := none,
                 passwordResetExpires := none,
                 lastActive := now } else v), ?_, ?_⟩
    · simp [resetPassword, hu]
    · have hmemu : u ∈ users := List.mem_of_find?_eq_some hu
      have hm := List.mem_map_of_mem (fun v : UserDoc =>
        if v.id == u.id then
          { v with password := some (bcr newPassword),
                   passwordResetToken := none,
                   passwordResetExpires := none,
                   lastActive := now } else v) hmemu
      simpa using hm

/-- A registered user with a pending reset token (hash of "tok" under
the sample hash function, expiring at time 100). -/
def bob : UserDoc :=
  { id := 2, username := "bob", email := "b@x", password := some "old",
    passwordResetToken := some "tok#", passwordResetExpires := some 100,
    role := Role.community_member,
    permissions := { canPost := true, canComment := true,
                     canModerate := false, canManageUsers := false },
    lastActive := 0 }

/-- Witness for C5: bob completes the reset with the valid token at
time 50; the stored user ends up with the new password hash and
cleared token fields. -/
theorem c5_password_reset_spec_witness :
    ∃ users', resetPassword (fun s => s ++ "#") (fun s => s ++ "!")
        [bob] "tok" "new" 50 = .ok users' ∧
      { bob with password := some ((fun s => s ++ "!") "new"),
                 passwordResetToken := none,
                 passwordResetExpires := none,
                 lastActive := 50 } ∈ users' :=
  (c5_password_reset_spec (fun s => s ++ "#") (fun s => s ++ "!")
    [bob] "e" "r" "tok" "new" 50).2.2.2 bob (by decide)

/-! ### C6 — likeComment -/

/-- C6: on a comment whose stored likes array is empty, the route's
`comment.likes += 1` evaluates, under JavaScript coercion, to the
string "1" — not a numeric increment of a counter — and applying the
same update to that result yields "11", not 2.  The likes field is an
array of user references in the schema, so no numeric like count of N
exists after N calls. -/
theorem c6_likeComment_not_a_counter :
    likeComment sampleStore 1 = .ok (JSValue.str "1") ∧
    (∀ n : Int, JSValue.str "1" ≠ JSValue.num n) ∧
    jsPlus (JSValue.str "1") (JSValue.num 1) = JSValue.str "11" := by
  refine ⟨rfl, ?_, rfl⟩
  intro n h
  exact JSValue.noConfusion h

/-! ### C7 — permission flags derived from role at creation -/

/-- C7: a newly created user's permission flags are the schema defaults
derived from the role: canPost and canComment hold iff the role is
community_member, moderator or admin; canModerate iff moderator or
admin; canManageUsers iff admin. -/
theorem c7_created_user_permissions (r : Role) (newId : UserId)
    (username email : String) (password : Option String) (now : Nat) :
    (createUserDoc newId username email password r now).permissions =
      defaultPermissions r ∧
    ((defaultPermissions r).canPost = true ↔
      r = Role.community_member ∨ r = Role.moderator ∨ r = Role.admin) ∧
    ((defaultPermissions r).canComment = true ↔
      r = Role.community_member ∨ r = Role.moderator ∨ r = Role.admin) ∧
    ((defaultPermissions r).canModerate = true ↔
      r = Role.moderator ∨ r = Role.admin) ∧
    ((defaultPermissions r).canManageUsers = true ↔ r = Role.admin) := by
  refine ⟨rfl, ?_, ?_, ?_, ?_⟩ <;> (cases r <;> decide)

/-! ### C8 — role updates keep permission flags -/

/-- A single-permission gate passes whenever the identity holds that
flag (shared by the moderator and admin routes). -/
theorem authorize_single_permission_allow (requester : Identity)
    (k : PermKey) (h : identityHasPermission requester k = true) :
    authorize [] [k] (some requester) = .allow := by
  simp [authorize, h]

/-- C8: the admin role-update route writes only the role field: every
stored permission flag (and every user id) is exactly as before, and
the targeted user reappears with the new role and all other fields
unchanged. -/
theorem c8_role_update_preserves_permissions (requester : Identity)
    (users : List UserDoc) (uid : UserId) (newRole : Role)
    (h : identityHasPermission requester PermKey.canManageUsers = true) :
    ∃ users', adminSetUserRole requester users uid newRole = .ok users' ∧
      users'.map (fun u => u.permissions) = users.map (fun u => u.permissions) ∧
      users'.map (fun u => u.id) = users.map (fun u => u.id) ∧
      ∀ u ∈ users, u.id = uid → { u with role := newRole } ∈ users' := by
  have hgate := authorize_single_permission_allow requester PermKey.canManageUsers h
  refine ⟨users.map (fun u => if u.id == uid then { u with role := newRole } else u),
    ?_, ?_, ?_, ?_⟩
  · unfold adminSetUserRole
    rw [hgate]
  · rw [List.map_map]
    apply List.map_congr_left
    intro u _
    by_cases hu : u.id = uid <;> simp [hu]
  · rw [List.map_map]
    apply List.map_congr_left
    intro u _
    by_cases hu : u.id = uid <;> simp [hu]
  · intro u hu hui
    have hm := List.mem_map_of_mem (fun v : UserDoc =>
      if v.id == uid then { v with role := newRole } else v) hu
    simpa [hui] using hm

/-- An admin identity holding canManageUsers. -/
def adam : Identity :=
  { userId := 1, role := Role.admin,
    permissions := some { canPost := true, canComment := true,
                          canModerate := true, canManageUsers := true } }

/-- Witness for C8: adam demotes bob to guest; bob's stored permission
flags survive untouched. -/
theorem c8_role_update_preserves_permissions_witness :
    ∃ users', adminSetUserRole adam [bob] 2 Role.guest = .ok users' ∧
      users'.map (fun u => u.permissions) = [bob].map (fun u => u.permissions) ∧
      users'.map (fun u => u.id) = [bob].map (fun u => u.id) ∧
      ∀ u ∈ [bob], u.id = 2 → { u with role := Role.guest } ∈ users' :=
  c8_role_update_preserves_permissions adam [bob] 2 Role.guest (by decide)

/-! ### C9 — listComments -/

instance : IsTotal CommentDoc (fun a b => a.createdAt ≤ b.createdAt) :=
  ⟨fun a b => Nat.le_total a.createdAt b.createdAt⟩

instance : IsTrans CommentDoc (fun a b => a.createdAt ≤ b.createdAt) :=
  ⟨fun _ _ _ hab hbc => Nat.le_trans hab hbc⟩

/-- C9 (code bug): the list route filters and counts on the non-schema
`parent` path (the schema field is parentComment), so the top-level
query (`{parent: null}` matches the missing path) returns every
comment of the thread — replies included — a concrete parentId query
returns nothing, and every annotated reply count is 0.  Results are
still sorted by createdAt ascending.  Concretely, the reply cB
(parentComment = 1) is listed by the no-parentId query of the sample
store. -/
theorem c9_listComments_unfiltered (s : Store) (tid : ThreadId) :
    (∀ c, c ∈ (listComments s tid none).map Prod.fst ↔
      c ∈ s.comments ∧ c.thread = tid) ∧
    (∀ pid, listComments s tid (some pid) = []) ∧
    (∀ pid p, p ∈ listComments s tid pid → p.2 = 0) ∧
    (∀ pid, (listComments s tid pid).Pairwise
      (fun a b => a.1.createdAt ≤ b.1.createdAt)) ∧
    (cB ∈ (listComments sampleStore 1 none).map Prod.fst ∧
      cB.parentComment = some 1) := by
  have hfst : (listComments s tid none).map Prod.fst =
      (s.comments.filter (fun c => c.thread == tid && matchesParentQuery none c)).insertionSort
        (fun a b => a.createdAt ≤ b.createdAt) := by
    simp only [listComments]
    rw [List.map_map]
    have hcomp : (Prod.fst ∘ fun c : CommentDoc =>
        (c, (s.comments.filter (fun d => matchesParentQuery (some c.id) d)).length)) = id := rfl
    rw [hcomp, List.map_id]
  refine ⟨?_, ?_, ?_, ?_, ?_, ?_⟩
  · intro c
    rw [hfst]
    rw [(List.perm_insertionSort (fun a b : CommentDoc =>
      a.createdAt ≤ b.createdAt) _).mem_iff]
    simp [List.mem_filter, matchesParentQuery]
  · intro pid
    simp [listComments, matchesParentQuery]
  · intro pid p hp
    simp only [listComments] at hp
    obtain ⟨c, _, rfl⟩ := List.mem_map.mp hp
    simp [matchesParentQuery]
  · intro pid
    simp only [listComments]
    exact List.pairwise_map.mpr
      (List.sorted_insertionSort (fun a b : CommentDoc =>
        a.createdAt ≤ b.createdAt) _)
  · decide
  · rfl

/-- Witness for C9: the other reply, cG (parentComment = 2), is also
returned by the top-level listing of the sample store. -/
theorem c9_listComments_unfiltered_witness :
    cG ∈ (listComments sampleStore 1 none).map Prod.fst :=
  ((c9_listComments_unfiltered sampleStore 1).1 cG).mpr (by decide)

/-! ### C10 — moderator delete path -/

/-- C10: the moderator delete path, for any requester holding
canModerate, succeeds unconditionally (even when the named comment does
not exist: the store is then unchanged), removes at most the named
comment, keeps every other comment — in particular every reply of the
named comment — and leaves the thread collection (hence every comment
counter) and the user collection untouched. -/
theorem c10_moderator_delete_spec (requester : Identity) (s : Store)
    (cid : CommentId)
    (h : identityHasPermission requester PermKey.canModerate = true) :
    ∃ s', deleteCommentAsModerator requester s cid = .ok s' ∧
      s'.threads = s.threads ∧
      s'.users = s.users ∧
      (∀ d ∈ s.comments, d.id ≠ cid → d ∈ s'.comments) ∧
      (∀ d ∈ s'.comments, d ∈ s.comments) ∧
      (findComment s cid = none → s' = s) := by
  have hgate := authorize_single_permission_allow requester PermKey.canModerate h
  refine ⟨{ s with comments := s.comments.filter (fun c => c.id != cid) },
    ?_, rfl, rfl, ?_, ?_, ?_⟩
  · unfold deleteCommentAsModerator
    rw [hgate]
  · intro d hd hne
    exact List.mem_filter.mpr ⟨hd, by simpa using hne⟩
  · intro d hd
    exact (List.mem_filter.mp hd).1
  · intro hnone
    unfold findComment at hnone
    have hid : s.comments.filter (fun c => c.id != cid) = s.comments := by
      apply List.filter_eq_self.mpr
      intro a ha
      have := List.find?_eq_none.mp hnone a ha
      simpa using this
    rw [hid]

/-- Witness for C10: maria (a moderator) deletes comment 2 in the
sample store; cA and cG survive, in particular the reply cG of the
deleted comment, and the thread collection is unchanged. -/
theorem c10_moderator_delete_spec_witness :
    ∃ s', deleteCommentAsModerator maria sampleStore 2 = .ok s' ∧
      s'.threads = sampleStore.threads ∧
      s'.users = sampleStore.users ∧
      (∀ d ∈ sampleStore.comments, d.id ≠ 2 → d ∈ s'.comments) ∧
      (∀ d ∈ s'.comments, d ∈ sampleStore.comments) ∧
      (findComment sampleStore 2 = none → s' = sampleStore) :=
  c10_moderator_delete_spec maria sampleStore 2 (by decide)

end ForumFusion
